import Mathlib

/-!
Formal model of the Brand Playbook Intelligence application.

The frontend (TypeScript, under `src/frontend` and the unnamed frontend
modules) is embedded directly from its source: the conversation-history
preparation in `QueryInterface.handleSubmit`, the response types in
`types/index.ts`, `maskApiKey` in `ApiKeySettings.tsx`, `formatFileSize`
in the document list, and the `ApiClient` auth/API-key state machine.

The backend retrieval-augmented QA core (Chunker, Embedding Client,
Vector Index, Retriever, Answer Synthesizer, Ingestion Orchestrator) is
not present in the repository snapshot; those components are modelled
from the specification's component contracts (spec §3, §4.1, §4.3–§4.6),
with remote-provider behaviour (embedding vectors, similarity scoring,
generation output) supplied as oracle parameters.

Numbers that are IEEE doubles in the source (scores, confidences, byte
sizes) are modelled as rationals; none of the verified properties depend
on rounding behaviour.
-/

namespace Playbook

/-- Role of a conversation message, from the `ConversationMessage` type in
`src/frontend/src/types/index.ts` (`'user' | 'assistant'`). -/
inductive ChatRole where
  | user
  | assistant
deriving DecidableEq, Repr

/-- Type `Passage` from `src/frontend/src/types/index.ts`. -/
structure Passage where
  content : String
  page_number : Nat
  chunk_type : String
  score : ℚ
deriving DecidableEq, Repr

/-- Type `QuestionResponse` from `src/frontend/src/types/index.ts`: the shape of a
successful `/ask` response consumed by the frontend. -/
structure QuestionResponse where
  answer : String
  passages : List Passage
  confidence : ℚ
  tokens_used : Nat
  follow_up_questions : List String
deriving DecidableEq, Repr

/-- Type `ConversationMessage` from `src/frontend/src/types/index.ts`. The `Date`
timestamp is modelled as a natural number of milliseconds. -/
structure ConversationMessage where
  role : ChatRole
  content : String
  timestamp : Nat
  passages : Option (List Passage) := none
  confidence : Option ℚ := none
deriving DecidableEq, Repr

/-- The `{role, content}` projection of a conversation message that
`QueryInterface.handleSubmit` sends to the API. -/
structure HistoryEntry where
  role : ChatRole
  content : String
deriving DecidableEq, Repr

/-- JavaScript `arr.slice(-n)` for `n > 0`: the elements from index
`max(length - n, 0)` to the end.  `Nat` truncated subtraction supplies the
`max` with `0`. -/
def jsSliceLast {α : Type} (n : Nat) (l : List α) : List α :=
  l.drop (l.length - n)

/-- Function `QueryInterface.handleSubmit` (PassageDisplay.tsx lines 73–77):
`conversation.slice(-6).map(msg => ({role: msg.role, content: msg.content}))`. -/
def prepareConversationHistory (conversation : List ConversationMessage) :
    List HistoryEntry :=
  (jsSliceLast 6 conversation).map (fun m => { role := m.role, content := m.content })

/-- Function `maskApiKey` from `ApiKeySettings.tsx` lines 74–77, on the key's character
sequence: keys shorter than 8 characters are returned verbatim; otherwise the
first 3 characters, a literal "...", and the last 4 characters. -/
def maskApiKey (key : List Char) : List Char :=
  if key.length < 8 then key
  else key.take 3 ++ ('.' :: '.' :: '.' :: []) ++ key.drop (key.length - 4)

/-- The state held by the `ApiClient` singleton (unnamed frontend module,
`api/client.ts`): the in-memory auth token, its `localStorage` copy, the
default `Authorization` header, the in-memory OpenAI API key, its
`sessionStorage` copy, and the default `X-API-Key` header. -/
structure ApiClientState where
  token : Option String
  localStorageAuthToken : Option String
  authorizationHeader : Option String
  apiKey : Option String
  sessionStorageApiKey : Option String
  xApiKeyHeader : Option String
deriving DecidableEq, Repr

namespace ApiClient

/-- Method `ApiClient.setAuthToken`: stores the token in memory, persists it to
`localStorage`, and sets the default `Authorization` header. -/
def setAuthToken (t : String) (s : ApiClientState) : ApiClientState :=
  { s with
    token := some t
    localStorageAuthToken := some t
    authorizationHeader := some ("Bearer " ++ t) }

/-- Method `ApiClient.setApiKey`: stores or clears the OpenAI API key in memory, in
`sessionStorage`, and in the default `X-API-Key` header. -/
def setApiKey (k : Option String) (s : ApiClientState) : ApiClientState :=
  match k with
  | some key =>
      { s with
        apiKey := some key
        sessionStorageApiKey := some key
        xApiKeyHeader := some key }
  | none =>
      { s with
        apiKey := none
        sessionStorageApiKey := none
        xApiKeyHeader := none }

/-- Method `ApiClient.logout` (unnamed frontend module lines 152–157): clears the
in-memory token, removes `auth_token` from `localStorage`, and deletes the
`Authorization` header; the API-key fields are not touched ("Keep API key in
session"). -/
def logout (s : ApiClientState) : ApiClientState :=
  { s with
    token := none
    localStorageAuthToken := none
    authorizationHeader := none }

end ApiClient

/-- The `units` array of `formatFileSize` (unnamed frontend module,
`DocumentList` component, lines 82–93). -/
def fileSizeUnits : List String := ["B", "KB", "MB", "GB"]

/-- The `while (size >= 1024 && unitIndex < units.length - 1)` loop of
`formatFileSize`: repeatedly divides by 1024 and advances the unit index.
Returns the final `(size, unitIndex)` pair. -/
def formatFileSizeLoop (size : ℚ) (unitIndex : Nat) : ℚ × Nat :=
  if h : 1024 ≤ size ∧ unitIndex < fileSizeUnits.length - 1 then
    formatFileSizeLoop (size / 1024) (unitIndex + 1)
  else (size, unitIndex)
termination_by fileSizeUnits.length - 1 - unitIndex
decreasing_by
  simp only [fileSizeUnits, List.length_cons, List.length_nil] at *
  omega

/-- Model of JavaScript `size.toFixed(1)`: one decimal digit, rounding half
up.  (The verified properties of `formatFileSize` concern only the unit
suffix, not the rendered digits.) -/
def toFixedOne (q : ℚ) : String :=
  toString (Int.floor (q * 10 + 1 / 2) / 10) ++ "." ++
    toString (Int.floor (q * 10 + 1 / 2) % 10)

/-- Function `formatFileSize` from the `DocumentList` component: runs the division
loop from unit index 0 and renders `` `${size.toFixed(1)} ${units[unitIndex]}` ``. -/
def formatFileSize (bytes : ℚ) : String :=
  toFixedOne (formatFileSizeLoop bytes 0).1 ++ " " ++
    (fileSizeUnits.getD (formatFileSizeLoop bytes 0).2 "")

/-- Modelled from the spec: the backend core is not in the repository
snapshot.  `Chunk` follows the data model of spec §3: identifier, owning
document identifier, raw text, structural tag, source locator (page number),
and sequence index within the document. -/
structure Chunk where
  id : String
  documentId : String
  text : String
  chunkType : String
  pageNumber : Nat
  seqIndex : Nat
deriving DecidableEq, Repr

/-- Modelled from the spec: a chunk stored in the Vector Index together with
its embedding vector (spec §3, §4.3). -/
structure IndexedChunk where
  chunk : Chunk
  vector : List ℚ
deriving DecidableEq, Repr

/-- Modelled from the spec: `RetrievedPassage` (spec §3) — a read-only
projection of a Chunk plus a relevance score. -/
structure RetrievedPassage where
  content : String
  documentId : String
  pageNumber : Nat
  chunkType : String
  seqIndex : Nat
  score : ℚ
deriving DecidableEq, Repr

/-- Modelled from the spec: `Answer` (spec §3) — generated text, confidence,
evidence passages, follow-up questions, token-usage counter. -/
structure Answer where
  text : String
  confidence : ℚ
  passages : List RetrievedPassage
  followUpQuestions : List String
  tokensUsed : Nat
deriving DecidableEq, Repr

/-- Modelled from the spec: the typed ingestion error taxonomy (spec §7)
restricted to the stages driven by the Ingestion Orchestrator. -/
inductive IngestError where
  | extractionFailed
  | embeddingUnavailable
  | upsertFailed
deriving DecidableEq, Repr

/-- Modelled from the spec: all chunks in the index owned by a document —
the hard `documentIdFilter` constraint of spec §4.3. -/
def chunksOwnedBy (documentId : String) (idx : List IndexedChunk) :
    List IndexedChunk :=
  idx.filter (fun e => e.chunk.documentId == documentId)

/-- Modelled from the spec: `delete(documentId)` of the Vector Index
(spec §4.3) — removes all chunks owned by the document. -/
def deleteDoc (documentId : String) (idx : List IndexedChunk) :
    List IndexedChunk :=
  idx.filter (fun e => e.chunk.documentId != documentId)

/-- Modelled from the spec: `upsert(documentId, chunks)` of the Vector Index
(spec §4.3) — re-upserting the same chunk identifier replaces it. -/
def upsertChunks (entries : List IndexedChunk) (idx : List IndexedChunk) :
    List IndexedChunk :=
  idx.filter (fun e => entries.all (fun n => n.chunk.id != e.chunk.id)) ++ entries

/-- Modelled from the spec: `search(queryVector, k, documentIdFilter?)` of the
Vector Index (spec §4.3).  The exact similarity scoring is provider- and
metric-dependent (spec §9), so it is supplied as a parameter mapping query
and stored vectors to a score. -/
def searchIndex (score : List ℚ → List ℚ → ℚ) (queryVector : List ℚ) (k : Nat)
    (documentIdFilter : Option String) (idx : List IndexedChunk) :
    List (IndexedChunk × ℚ) :=
  let inScope := match documentIdFilter with
    | some d => chunksOwnedBy d idx
    | none => idx
  (List.insertionSort (fun p q => q.2 ≤ p.2)
    (inScope.map (fun e => (e, score queryVector e.vector)))).take k

/-- Modelled from the spec: the Retriever's output ordering (spec §4.4) —
by non-increasing score, ties broken by earlier sequence index. -/
def passageOrder (p q : RetrievedPassage) : Prop :=
  q.score < p.score ∨ (p.score = q.score ∧ p.seqIndex ≤ q.seqIndex)

instance : DecidableRel passageOrder := fun p q => by
  unfold passageOrder
  exact inferInstance

instance : IsTotal RetrievedPassage passageOrder where
  total p q := by
    unfold passageOrder
    rcases lt_trichotomy p.score q.score with h | h | h
    · exact Or.inr (Or.inl h)
    · rcases Nat.le_total p.seqIndex q.seqIndex with hs | hs
      · exact Or.inl (Or.inr ⟨h, hs⟩)
      · exact Or.inr (Or.inr ⟨h.symm, hs⟩)
    · exact Or.inl (Or.inl h)

instance : IsTrans RetrievedPassage passageOrder where
  trans p q u hpq hqu := by
    unfold passageOrder at *
    rcases hpq with h1 | ⟨h1, h1s⟩
    · rcases hqu with h2 | ⟨h2, _⟩
      · exact Or.inl (lt_trans h2 h1)
      · exact Or.inl (h2 ▸ h1)
    · rcases hqu with h2 | ⟨h2, h2s⟩
      · exact Or.inl (h1 ▸ h2)
      · exact Or.inr ⟨h1.trans h2, le_trans h1s h2s⟩

/-- Modelled from the spec: the Retriever's adjacent-deduplication pass
(spec §4.4) — passages whose source chunks are adjacent (same document,
consecutive sequence index) are merged into one passage with the higher
score. -/
def mergeOverlapping : List RetrievedPassage → List RetrievedPassage
  | [] => []
  | p :: [] => p :: []
  | p :: q :: rest =>
      if p.documentId = q.documentId
          ∧ (q.seqIndex = p.seqIndex + 1 ∨ p.seqIndex = q.seqIndex + 1) then
        mergeOverlapping ((if q.score ≤ p.score then p else q) :: rest)
      else p :: mergeOverlapping (q :: rest)
termination_by l => l.length
decreasing_by
  all_goals simp

/-- Modelled from the spec: the Retriever's post-processing (spec §4.4) —
drop candidates below the similarity threshold (default 0.3), deduplicate
adjacent passages, and truncate to the top `k` by score with ties broken by
earlier sequence index. -/
def rankPassages (k : Nat) (threshold : ℚ)
    (candidates : List RetrievedPassage) : List RetrievedPassage :=
  (List.insertionSort passageOrder
    (mergeOverlapping
      (candidates.filter (fun p => decide (threshold ≤ p.score))))).take k

/-- Modelled from the spec: the projection of a scored index hit to a
`RetrievedPassage` (spec §3: read-only projection of a Chunk plus a
relevance score). -/
def toRetrievedPassage (e : IndexedChunk × ℚ) : RetrievedPassage :=
  { content := e.1.chunk.text
    documentId := e.1.chunk.documentId
    pageNumber := e.1.chunk.pageNumber
    chunkType := e.1.chunk.chunkType
    seqIndex := e.1.chunk.seqIndex
    score := e.2 }

/-- Modelled from the spec: `retrieve(question, documentIdFilter?, k)`
(spec §4.4, default `k = 5`, threshold 0.3) — the question's embedding is the
`queryVector` produced by the Embedding Client oracle; the Vector Index is
asked for the top `k*2` candidates to allow for post-filtering. -/
def retrieve (score : List ℚ → List ℚ → ℚ) (queryVector : List ℚ) (k : Nat)
    (threshold : ℚ) (documentIdFilter : Option String)
    (idx : List IndexedChunk) : List RetrievedPassage :=
  rankPassages k threshold
    ((searchIndex score queryVector (2 * k) documentIdFilter idx).map
      toRetrievedPassage)

/-- Modelled from the spec: the fixed insufficient-evidence answer text the
synthesizer must produce when no passages are available (spec §4.5, §7:
`NoEvidenceFound` means the synthesizer answers "insufficient information"
rather than hallucinating). -/
def insufficientEvidenceMessage : String :=
  "I could not find sufficient information in the provided documents to answer this question."

/-- Modelled from the spec: mean relevance score of the cited passages, one
ingredient of the confidence estimate (spec §4.5). -/
def meanScore (ps : List RetrievedPassage) : ℚ :=
  (ps.map (fun p => p.score)).sum / (ps.length : ℚ)

/-- Modelled from the spec: `answer(question, passages, conversationHistory)`
of the Answer Synthesizer (spec §4.5).  The generation model's reported
answer text, self-reported certainty, follow-up suggestions and token usage
are oracle inputs.  With passages available, confidence combines the model's
certainty with the mean relevance of the cited passages; with no passages it
is capped at 0.3 regardless of model output and the text is the fixed
insufficient-evidence message. -/
def synthesizeAnswer (modelText : String) (modelConfidence : ℚ)
    (modelFollowUps : List String) (tokensUsed : Nat)
    (passages : List RetrievedPassage) : Answer :=
  if passages.isEmpty then
    { text := insufficientEvidenceMessage
      confidence := min modelConfidence (3 / 10)
      passages := []
      followUpQuestions := modelFollowUps
      tokensUsed := tokensUsed }
  else
    { text := modelText
      confidence := (modelConfidence + meanScore passages) / 2
      passages := passages
      followUpQuestions := modelFollowUps
      tokensUsed := tokensUsed }

/-- Modelled from the spec: the Chunker's size-based splitting loop
(spec §4.1), on a document's token sequence.  `step + 1` tokens of progress
are made per emitted chunk, so with target size `t` and overlap
`v = t - (step + 1)` each chunk is seeded with the trailing `v` tokens of its
predecessor. -/
def chunkAux (step targetSize : Nat) (tokens : List String) :
    List (List String) :=
  if h : tokens.length ≤ targetSize then
    (if tokens.isEmpty then [] else tokens :: [])
  else
    tokens.take targetSize :: chunkAux step targetSize (tokens.drop (step + 1))
termination_by tokens.length
decreasing_by
  simp only [List.length_drop]
  omega

/-- Modelled from the spec: `chunk(text, structuralUnits)` of the Chunker
(spec §4.1) in its size-only splitting mode (the degradation path when the
extractor reports no structural units): walk the token sequence, emit a chunk
each time the buffer reaches the target size (default ~500 tokens), and seed
the next buffer with the trailing `overlap` tokens (default ~50) of the
previous chunk.  An empty input yields an empty sequence, not an error. -/
def chunkTokens (targetSize overlap : Nat) (tokens : List String) :
    List (List String) :=
  chunkAux (targetSize - overlap - 1) targetSize tokens

/-- Modelled from the spec: undoing the chunk overlap (spec §8) — concatenate
the chunks in sequence order after removing from each chunk the overlap it
shares with its predecessor. -/
def reconstruct (overlap : Nat) : List (List String) → List String
  | [] => []
  | c :: cs => c ++ (cs.map (fun d => d.drop overlap)).flatten

/-- Modelled from the spec: `ingest(documentId, extractedText, structuralUnits)`
of the Ingestion Orchestrator (spec §4.6), driving
Chunker → Embedding Client → Vector Index upsert.  Stage outcomes are
oracles: the chunking result, the embedding result, and the index write
(which may leave a partially-written index together with a success flag).
On any stage failure a compensating delete for the document runs before the
error is surfaced.  Returns the surfaced result paired with the final index
state. -/
def ingest (chunkStage : Except IngestError (List Chunk))
    (embedStage : List Chunk → Except IngestError (List (List ℚ)))
    (upsertStage : List IndexedChunk → List IndexedChunk × Bool)
    (documentId : String) (idx : List IndexedChunk) :
    Except IngestError Nat × List IndexedChunk :=
  match chunkStage with
  | Except.error e => (Except.error e, deleteDoc documentId idx)
  | Except.ok chunks =>
    match embedStage chunks with
    | Except.error e => (Except.error e, deleteDoc documentId idx)
    | Except.ok _vectors =>
      let written := upsertStage idx
      if written.2 then (Except.ok chunks.length, written.1)
      else (Except.error IngestError.upsertFailed, deleteDoc documentId written.1)

theorem formatFileSizeLoop_index_le (n : Nat) :
    ∀ (size : ℚ) (i : Nat), 3 ≤ i + n → i ≤ 3 → (formatFileSizeLoop size i).2 ≤ 3 := by
  induction n with
  | zero =>
      intro size i h3 hi
      rw [formatFileSizeLoop]
      split
      next h =>
        exfalso
        have : i < 3 := by simpa [fileSizeUnits] using h.2
        omega
      next h => simpa using hi
  | succ n ih =>
      intro size i h3 hi
      rw [formatFileSizeLoop]
      split
      next h =>
        have : i < 3 := by simpa [fileSizeUnits] using h.2
        exact ih (size / 1024) (i + 1) (by omega) (by omega)
      next h => simpa using hi

theorem formatFileSizeLoop_tera (b : ℚ) (hb : (1024 : ℚ) ^ 4 ≤ b) :
    formatFileSizeLoop b 0 = (b / 1024 / 1024 / 1024, 3) := by
  have h0 : (0 : ℚ) < 1024 := by norm_num
  have h1 : (1024 : ℚ) ≤ b := le_trans (by norm_num) hb
  have h2 : (1024 : ℚ) ≤ b / 1024 := by
    rw [le_div_iff₀ h0]
    exact le_trans (by norm_num) hb
  have h3 : (1024 : ℚ) ≤ b / 1024 / 1024 := by
    rw [div_div, le_div_iff₀ (by norm_num : (0 : ℚ) < 1024 * 1024)]
    exact le_trans (by norm_num) hb
  rw [formatFileSizeLoop, dif_pos ⟨h1, by simp [fileSizeUnits]⟩]
  rw [formatFileSizeLoop, dif_pos ⟨h2, by simp [fileSizeUnits]⟩]
  rw [formatFileSizeLoop, dif_pos ⟨h3, by simp [fileSizeUnits]⟩]
  rw [formatFileSizeLoop, dif_neg]
  rintro ⟨-, hc⟩
  simp [fileSizeUnits] at hc

/-- C9: the `formatFileSize` division loop is bounded — its unit index,
strictly increasing each iteration, never exceeds 3, so the loop runs at most
3 times and terminates for every byte count — and the rendered result always
ends in one of the four units B, KB, MB, GB; a byte count of a terabyte
(1024⁴) or more is still rendered in GB. -/
theorem format_file_size_bounded_and_unit (bytes : ℚ) :
    (formatFileSizeLoop bytes 0).2 < fileSizeUnits.length
      ∧ (∃ u ∈ fileSizeUnits,
          formatFileSize bytes = toFixedOne (formatFileSizeLoop bytes 0).1 ++ " " ++ u
            ∧ u.data <:+ (formatFileSize bytes).data)
      ∧ ((1024 : ℚ) ^ 4 ≤ bytes →
          formatFileSize bytes
            = toFixedOne (bytes / 1024 / 1024 / 1024) ++ " " ++ "GB") := by
  have hle : (formatFileSizeLoop bytes 0).2 ≤ 3 :=
    formatFileSizeLoop_index_le 3 bytes 0 (by omega) (by omega)
  refine ⟨?_, ?_, ?_⟩
  · simp only [fileSizeUnits, List.length_cons, List.length_nil]
    omega
  · refine ⟨fileSizeUnits.getD (formatFileSizeLoop bytes 0).2 "", ?_, rfl, ?_⟩
    · have h4 : (formatFileSizeLoop bytes 0).2 = 0 ∨ (formatFileSizeLoop bytes 0).2 = 1
          ∨ (formatFileSizeLoop bytes 0).2 = 2 ∨ (formatFileSizeLoop bytes 0).2 = 3 := by
        omega
      rcases h4 with h | h | h | h <;> rw [h] <;> simp [fileSizeUnits]
    · refine ⟨(toFixedOne (formatFileSizeLoop bytes 0).1 ++ " ").data, ?_⟩
      simp [formatFileSize, String.data_append]
  · intro h
    rw [formatFileSize, formatFileSizeLoop_tera bytes h]
    rfl

/-- C9 witness: exactly one terabyte is rendered with the GB unit. -/
theorem format_file_size_witness :
    formatFileSize ((1024 : ℚ) ^ 4)
      = toFixedOne ((1024 : ℚ) ^ 4 / 1024 / 1024 / 1024) ++ " " ++ "GB" :=
  (format_file_size_bounded_and_unit ((1024 : ℚ) ^ 4)).2.2 (le_refl _)

/-- C1: when a question is asked with an existing conversation, the history
submitted to the API is `conversation.slice(-6)` projected to role/content:
it equals the last 6 elements of the conversation (the whole conversation
when it has fewer than 6 messages), so at most 6 turns are sent and every
older turn is dropped. -/
theorem conversation_history_is_last_six (conversation : List ConversationMessage) :
    prepareConversationHistory conversation
        = ((conversation.reverse.take 6).reverse).map
            (fun m => HistoryEntry.mk m.role m.content)
      ∧ (prepareConversationHistory conversation).length = min 6 conversation.length
      ∧ (conversation.length ≤ 6 →
          prepareConversationHistory conversation
            = conversation.map (fun m => HistoryEntry.mk m.role m.content)) := by
  refine ⟨?_, ?_, ?_⟩
  · have h : jsSliceLast 6 conversation = (conversation.reverse.take 6).reverse := by
      have := List.rtake_eq_reverse_take_reverse (l := conversation) (n := 6)
      simpa [List.rtake, jsSliceLast] using this
    simp [prepareConversationHistory, h]
  · simp only [prepareConversationHistory, jsSliceLast, List.length_map, List.length_drop]
    omega
  · intro h
    have h0 : conversation.length - 6 = 0 := by omega
    simp [prepareConversationHistory, jsSliceLast, h0]

/-- C1 witness: a two-message conversation is sent in full. -/
theorem conversation_history_is_last_six_witness :
    prepareConversationHistory
        (ConversationMessage.mk ChatRole.user "what is the logo clear space" 0 none none ::
          ConversationMessage.mk ChatRole.assistant "2x the logo height" 1 none none :: [])
      = (HistoryEntry.mk ChatRole.user "what is the logo clear space" ::
          HistoryEntry.mk ChatRole.assistant "2x the logo height" :: []) := by
  have h := (conversation_history_is_last_six
      (ConversationMessage.mk ChatRole.user "what is the logo clear space" 0 none none ::
        ConversationMessage.mk ChatRole.assistant "2x the logo height" 1 none none :: [])).2.2
      (by decide)
  rw [h]
  rfl

/-- C2: the query-path result type `QuestionResponse` consists of exactly the
five fields answer, passages, confidence, tokens used, and follow-up
questions: every value of the type is fully determined by (and carries all
of) these five projections. -/
theorem question_response_has_exactly_five_fields (r : QuestionResponse) :
    r = QuestionResponse.mk r.answer r.passages r.confidence
          r.tokens_used r.follow_up_questions := by
  cases r
  rfl

/-- C8: `maskApiKey` returns any key shorter than 8 characters verbatim, and
for a key of length at least 8 returns exactly the first 3 characters, the
literal "...", and the last 4 characters — so exactly 3 + 4 = 7 characters of
a long key are revealed. -/
theorem mask_api_key_short_verbatim_long_masked (key : List Char) :
    (key.length < 8 → maskApiKey key = key)
      ∧ (8 ≤ key.length →
          maskApiKey key
              = key.take 3 ++ ('.' :: '.' :: '.' :: []) ++ (key.reverse.take 4).reverse
            ∧ (key.take 3).length + ((key.reverse.take 4).reverse).length = 7) := by
  constructor
  · intro h
    simp [maskApiKey, h]
  · intro h
    have hlt : ¬ key.length < 8 := by omega
    constructor
    · have htail : (key.reverse.take 4).reverse = key.drop (key.length - 4) := by
        have := List.rtake_eq_reverse_take_reverse (l := key) (n := 4)
        simpa [List.rtake] using this.symm
      simp [maskApiKey, hlt, htail]
    · simp only [List.length_take, List.length_reverse]
      omega

/-- C8 witness: a 10-character key is masked to its first 3 and last 4
characters around "...". -/
theorem mask_api_key_witness :
    maskApiKey ('s' :: 'k' :: '-' :: 'a' :: 'b' :: 'c' :: 'd' :: 'e' :: 'f' :: 'g' :: [])
      = ('s' :: 'k' :: '-' :: '.' :: '.' :: '.' :: 'd' :: 'e' :: 'f' :: 'g' :: []) := by
  have h := (mask_api_key_short_verbatim_long_masked
      ('s' :: 'k' :: '-' :: 'a' :: 'b' :: 'c' :: 'd' :: 'e' :: 'f' :: 'g' :: [])).2
      (by decide)
  rw [h.1]
  decide

/-- C10: `ApiClient.logout` clears exactly the authentication state — the
in-memory token, its `localStorage` copy, and the `Authorization` header all
become absent — while the OpenAI API key, its `sessionStorage` copy, and the
`X-API-Key` header are left unchanged. -/
theorem logout_clears_only_auth_state (s : ApiClientState) :
    (ApiClient.logout s).token = none
      ∧ (ApiClient.logout s).localStorageAuthToken = none
      ∧ (ApiClient.logout s).authorizationHeader = none
      ∧ (ApiClient.logout s).apiKey = s.apiKey
      ∧ (ApiClient.logout s).sessionStorageApiKey = s.sessionStorageApiKey
      ∧ (ApiClient.logout s).xApiKeyHeader = s.xApiKeyHeader := by
  refine ⟨rfl, rfl, rfl, rfl, rfl, rfl⟩

theorem chunksOwnedBy_deleteDoc (d : String) (idx : List IndexedChunk) :
    chunksOwnedBy d (deleteDoc d idx) = [] := by
  induction idx with
  | nil => rfl
  | cons e t ih =>
      by_cases h : e.chunk.documentId = d
      · simp [deleteDoc, chunksOwnedBy, List.filter_cons, h, ih]
      · simp [deleteDoc, chunksOwnedBy, List.filter_cons, h, ih]

/-- C7: searching with a `documentIdFilter` right after deleting that
document returns the empty sequence, and delete is idempotent — deleting
again changes nothing, and deleting a document with no chunks in the index
is a no-op that succeeds rather than an error. -/
theorem delete_search_empty_and_idempotent (score : List ℚ → List ℚ → ℚ)
    (queryVector : List ℚ) (k : Nat) (d : String) (idx : List IndexedChunk) :
    searchIndex score queryVector k (some d) (deleteDoc d idx) = []
      ∧ deleteDoc d (deleteDoc d idx) = deleteDoc d idx
      ∧ ((∀ e ∈ idx, e.chunk.documentId ≠ d) → deleteDoc d idx = idx) := by
  refine ⟨?_, ?_, ?_⟩
  · simp [searchIndex, chunksOwnedBy_deleteDoc]
  · induction idx with
    | nil => rfl
    | cons e t ih =>
        by_cases h : e.chunk.documentId = d
        · simp [deleteDoc, List.filter_cons, h, ih]
        · simp [deleteDoc, List.filter_cons, h, ih]
  · intro h
    apply List.filter_eq_self.mpr
    intro e he
    simpa [bne_iff_ne] using h e he

/-- C7 witness: deleting an absent document from the empty index is a
no-op. -/
theorem delete_search_witness : deleteDoc "doc-1" [] = [] :=
  (delete_search_empty_and_idempotent (fun _ _ => 0) [] 5 "doc-1" []).2.2
    (by simp)

/-- C4: ingestion is atomic per document — whenever `ingest` surfaces an
error from any stage (chunking, embedding, or index upsert), the final
vector index contains zero chunks owned by the ingested document, because a
compensating delete runs before the error is surfaced. -/
theorem ingest_failure_leaves_no_chunks
    (chunkStage : Except IngestError (List Chunk))
    (embedStage : List Chunk → Except IngestError (List (List ℚ)))
    (upsertStage : List IndexedChunk → List IndexedChunk × Bool)
    (documentId : String) (idx : List IndexedChunk) (e : IngestError)
    (h : (ingest chunkStage embedStage upsertStage documentId idx).1
          = Except.error e) :
    chunksOwnedBy documentId
      (ingest chunkStage embedStage upsertStage documentId idx).2 = [] := by
  cases chunkStage with
  | error e1 => simpa [ingest] using chunksOwnedBy_deleteDoc documentId idx
  | ok chunks =>
      cases hemb : embedStage chunks with
      | error e2 =>
          simpa [ingest, hemb] using
            chunksOwnedBy_deleteDoc documentId idx
      | ok vecs =>
          by_cases hw : (upsertStage idx).2
          · exfalso
            simp [ingest, hemb, hw] at h
          · simpa [ingest, hemb, hw] using
              chunksOwnedBy_deleteDoc documentId (upsertStage idx).1

/-- C4 witness: a failed extraction stage on the empty index leaves no
chunks for the document. -/
theorem ingest_failure_witness :
    chunksOwnedBy "doc-1"
      (ingest (Except.error IngestError.extractionFailed)
        (fun _ => Except.ok []) (fun i => (i, true)) "doc-1" []).2 = [] :=
  ingest_failure_leaves_no_chunks (Except.error IngestError.extractionFailed)
    (fun _ => Except.ok []) (fun i => (i, true)) "doc-1" []
    IngestError.extractionFailed rfl

/-- C3: an answer synthesized from an empty passage list has confidence at
most 0.3 regardless of the model-reported confidence, and its text is the
fixed insufficient-evidence message, independent of the model's reported
answer text. -/
theorem synthesizer_no_evidence_confidence_capped (modelText : String)
    (modelConfidence : ℚ) (modelFollowUps : List String) (tokensUsed : Nat) :
    (synthesizeAnswer modelText modelConfidence modelFollowUps
        tokensUsed []).confidence ≤ 3 / 10
      ∧ (synthesizeAnswer modelText modelConfidence modelFollowUps
          tokensUsed []).text = insufficientEvidenceMessage := by
  constructor
  · simp only [synthesizeAnswer, List.isEmpty_nil, if_true]
    exact min_le_right _ _
  · simp [synthesizeAnswer]

/-- C6: for every scoring oracle, query vector, index state and filter,
`retrieve` returns at most `k` passages, ordered by non-increasing relevance
score with equal scores tied-broken by earlier sequence index
(`passageOrder`), so the output order is deterministic. -/
theorem retrieve_at_most_k_and_ordered (score : List ℚ → List ℚ → ℚ)
    (queryVector : List ℚ) (k : Nat) (threshold : ℚ)
    (documentIdFilter : Option String) (idx : List IndexedChunk) :
    (retrieve score queryVector k threshold documentIdFilter idx).length ≤ k
      ∧ List.Sorted passageOrder
          (retrieve score queryVector k threshold documentIdFilter idx) := by
  constructor
  · simp only [retrieve, rankPassages, List.length_take]
    omega
  · show List.Pairwise passageOrder _
    unfold retrieve rankPassages
    exact (List.sorted_insertionSort passageOrder _).sublist
      (List.take_sublist ..)

theorem chunkAux_head (step targetSize : Nat) (ts : List String)
    (h : ts ≠ []) :
    ∃ tl, chunkAux step targetSize ts = ts.take targetSize :: tl := by
  rw [chunkAux]
  split
  next hle =>
    rw [if_neg (by simpa [List.isEmpty_iff] using h)]
    exact ⟨[], by rw [List.take_of_length_le hle]⟩
  next hgt => exact ⟨_, rfl⟩

theorem chunkAux_flatten_drop (step targetSize overlap : Nat)
    (hsum : overlap + (step + 1) = targetSize) :
    ∀ ts : List String,
      ((chunkAux step targetSize ts).map (fun c => c.drop overlap)).flatten
        = ts.drop overlap := by
  suffices hgen : ∀ n (ts : List String), ts.length = n →
      ((chunkAux step targetSize ts).map (fun c => c.drop overlap)).flatten
        = ts.drop overlap by
    intro ts
    exact hgen ts.length ts rfl
  intro n
  induction n using Nat.strong_induction_on with
  | _ n ih =>
    intro ts hlen
    rw [chunkAux]
    split
    next hle =>
      by_cases hemp : ts.isEmpty
      · have hnil : ts = [] := by simpa [List.isEmpty_iff] using hemp
        simp [hnil]
      · simp [hemp]
    next hgt =>
      push_neg at hgt
      have hrec := ih (ts.length - (step + 1)) (by omega) (ts.drop (step + 1))
        (by simp [List.length_drop])
      simp only [List.map_cons, List.flatten_cons, hrec]
      rw [List.drop_take, List.drop_drop]
      have h1 : targetSize - overlap = step + 1 := by omega
      have h2 : step + 1 + overlap = overlap + (step + 1) := by omega
      rw [h1, h2, ← List.drop_drop]
      exact List.take_append_drop ..

theorem chunkAux_chain (step targetSize overlap : Nat)
    (hov : overlap + (step + 1) = targetSize) :
    ∀ ts : List String,
      List.Chain' (fun c d => d.take overlap = c.rtake overlap)
        (chunkAux step targetSize ts) := by
  suffices hgen : ∀ n (ts : List String), ts.length = n →
      List.Chain' (fun c d => d.take overlap = c.rtake overlap)
        (chunkAux step targetSize ts) by
    intro ts
    exact hgen ts.length ts rfl
  intro n
  induction n using Nat.strong_induction_on with
  | _ n ih =>
    intro ts hlen
    rw [chunkAux]
    split
    next hle =>
      by_cases hemp : ts.isEmpty
      · simp [hemp]
      · simp [hemp]
    next hgt =>
      push_neg at hgt
      have hne : ts.drop (step + 1) ≠ [] := by
        have hpos : 0 < (ts.drop (step + 1)).length := by
          simp only [List.length_drop]
          omega
        exact List.length_pos.mp hpos
      rw [List.chain'_cons']
      constructor
      · intro b hb
        obtain ⟨tl, htl⟩ := chunkAux_head step targetSize (ts.drop (step + 1)) hne
        rw [htl] at hb
        simp only [List.head?_cons, Option.mem_some_iff] at hb
        subst hb
        rw [List.take_take]
        have hmin : min overlap targetSize = overlap := by omega
        rw [hmin]
        show _ = (ts.take targetSize).drop ((ts.take targetSize).length - overlap)
        rw [List.length_take]
        have hlen2 : min targetSize ts.length = targetSize := by omega
        rw [hlen2, List.drop_take]
        have e1 : targetSize - overlap = step + 1 := by omega
        have e2 : targetSize - (step + 1) = overlap := by omega
        rw [e1, e2]
      · exact ih (ts.length - (step + 1)) (by omega) (ts.drop (step + 1))
          (by simp [List.length_drop])

/-- C5: the Chunker covers the extracted text completely — each chunk after
the first begins with exactly the trailing overlap of its predecessor, and
concatenating the chunks in order after removing that overlap from each
non-initial chunk reconstructs the original token sequence with no gaps. -/
theorem chunker_overlap_coverage (targetSize overlap : Nat)
    (hov : overlap < targetSize) (tokens : List String) :
    List.Chain' (fun c d => d.take overlap = c.rtake overlap)
        (chunkTokens targetSize overlap tokens)
      ∧ reconstruct overlap (chunkTokens targetSize overlap tokens) = tokens := by
  have hsum : overlap + (targetSize - overlap - 1 + 1) = targetSize := by omega
  constructor
  · exact chunkAux_chain (targetSize - overlap - 1) targetSize overlap hsum tokens
  · unfold chunkTokens
    rw [chunkAux]
    split
    next hle =>
      by_cases hemp : tokens.isEmpty
      · have hnil : tokens = [] := by simpa [List.isEmpty_iff] using hemp
        simp [hnil, reconstruct]
      · simp [hemp, reconstruct]
    next hgt =>
      push_neg at hgt
      simp only [reconstruct]
      rw [chunkAux_flatten_drop (targetSize - overlap - 1) targetSize overlap hsum
        (tokens.drop (targetSize - overlap - 1 + 1))]
      rw [List.drop_drop]
      have h3 : targetSize - overlap - 1 + 1 + overlap = targetSize := by omega
      rw [h3]
      exact List.take_append_drop ..

/-- C5 witness: a six-token document chunked with target size 4 and overlap
1 reconstructs exactly. -/
theorem chunker_overlap_coverage_witness :
    reconstruct 1 (chunkTokens 4 1 ["a", "b", "c", "d", "e", "f"])
      = ["a", "b", "c", "d", "e", "f"] :=
  (chunker_overlap_coverage 4 1 (by decide) ["a", "b", "c", "d", "e", "f"]).2

end Playbook
